import Mathlib

/-!
Verification of the core of `update-ota` (`download.py`) against its
natural-language specification.

The development shallowly embeds the pure core of the scraper:
`AndroidImageInfo.__post_init__` (the record normalizer),
`AndroidImageScraper.parse_modern_pixel_filename` (the modern
fingerprint-in-filename matcher), `get_version_sort_key` together with
Python's stable descending sort (the ranking comparator), the checksum
map built in `parse_page` (the checksum binder), `find_new_images`
(the snapshot differ), and the pure filtering/selection tail of
`get_latest_ota` and `get_latest_factory_image` (the selection
pipeline).

Strings are handled through their character lists; Python's string
operations used by the code (`in`, `.lower()`, `.upper()`, `.split`,
`'.'.join`, slicing, `startswith`, `isdigit`, `int`) are modeled by
the char-list helpers below, which agree with Python on the ASCII
inputs the scraper manipulates.
-/

namespace UpdateOta

/-- Python `s.lower()` (ASCII case folding, as `Char.toLower` only
maps `A`-`Z`). -/
def pyLower (s : String) : String := String.mk (s.data.map Char.toLower)

/-- Python `s.upper()` (ASCII case folding). -/
def pyUpper (s : String) : String := String.mk (s.data.map Char.toUpper)

/-- Contiguous-sublist test on character lists. -/
def listInfix (needle : List Char) : List Char → Bool
  | [] => needle.isEmpty
  | c :: t => needle.isPrefixOf (c :: t) || listInfix needle t

/-- Python substring test `needle in hay`. -/
def strIn (needle hay : String) : Bool := listInfix needle.data hay.data

/-- Splitting a character list on a separator character; `splitChar c l`
has the semantics of Python `str.split(c)`: `"".split(c) == [""]`,
separators at the ends produce empty segments. -/
def splitChar (c : Char) : List Char → List (List Char)
  | [] => [[]]
  | ch :: rest =>
    match splitChar c rest with
    | [] => [[ch]]
    | h :: t => if ch = c then [] :: h :: t else (ch :: h) :: t

/-- Python `s.split(c)` for a one-character separator. -/
def pySplit (c : Char) (s : String) : List String :=
  (splitChar c s.data).map String.mk

/-- Python `'.'.join(parts)`. -/
def joinDot (parts : List String) : String :=
  String.mk (List.intercalate ['.'] (parts.map String.data))

/-- Python `s[:n]` (slicing counts characters; the strings involved are
ASCII so this agrees with Python). -/
def pyTake (s : String) (n : Nat) : String := String.mk (s.data.take n)

/-- Python `s[n:]`. -/
def pyDrop (s : String) (n : Nat) : String := String.mk (s.data.drop n)

/--
The canonical Build Record, embedding the `AndroidImageInfo` dataclass
of `download.py`.  The `last_checked` field (wall-clock timestamp) and
the `friendly_name` field (never assigned by the parsing/selection
core) are omitted; every other field is kept under its source name.
-/
structure AndroidImageInfo where
  android_version : String
  build_version : String
  sub_version : Option String
  release_date : String
  additional_info : Option String
  download_url : String
  filename : String
  is_beta : Bool
  is_carrier : Bool
  is_factory : Bool
  is_region_specific : Bool
  region : Option String
  carrier : Option String
  build_type : String
  security_patch_level : Option String
  checksum : Option String
deriving DecidableEq

/-- The carrier keyword table of `_detect_image_type` (`carrier_map`),
in Python dict insertion order. -/
def carrierMap : List (String × String) :=
  [("tmobile", "T-Mobile"), ("t-mobile", "T-Mobile"), ("verizon", "Verizon"),
   ("att", "AT&T"), ("at&t", "AT&T"), ("sprint", "Sprint")]

/-- The region keyword table of `_detect_image_type` (`region_map`). -/
def regionMap : List (String × String) :=
  [("emea", "EMEA"), ("india", "India"), ("japan", "Japan"),
   ("korea", "Korea"), ("china", "China")]

/-- `_extract_security_patch`: split the build fingerprint on `.`; when
the second segment has length 6 (`YYMMDD`), emit `20YY-MM`. -/
def extractSecurityPatch (build_version : String) : Option String :=
  let parts := pySplit '.' build_version
  match parts.drop 1 with
  | [] => none
  | patch :: _ =>
    if patch.length = 6 then
      some ("20" ++ pyTake patch 2 ++ "-" ++ pyTake (pyDrop patch 2) 2)
    else none

/-- `self.filename = self.download_url.split("/")[-1]`. -/
def pyFilename (download_url : String) : String :=
  (pySplit '/' download_url).getLastD ""

/-- `filename_lower` of `_detect_image_type`. -/
def fnLower (download_url : String) : String := pyLower (pyFilename download_url)

/-- `info_lower` of `_detect_image_type`. -/
def infoLower (additional_info : Option String) : String :=
  pyLower (additional_info.getD "")

/-- `"beta" in filename_lower or ".b" in self.build_version.lower()`. -/
def detectIsBeta (build_version download_url : String) : Bool :=
  strIn "beta" (fnLower download_url) || strIn ".b" (pyLower build_version)

/-- The carrier-keyword membership test of `_detect_image_type`. -/
def detectIsCarrier (download_url : String) (additional_info : Option String) : Bool :=
  ["tmobile", "verizon", "att", "sprint", "t-mobile", "at&t"].any
    (fun c => strIn c (fnLower download_url) || strIn c (infoLower additional_info))

/-- `"factory" in filename_lower` (this overwrites the constructor
argument). -/
def detectIsFactory (download_url : String) : Bool :=
  strIn "factory" (fnLower download_url)

/-- The region-keyword membership test (the additional info only). -/
def detectIsRegion (additional_info : Option String) : Bool :=
  ["emea", "india", "japan", "korea", "china"].any
    (fun r => strIn r (infoLower additional_info))

/-- The first matching entry of `carrier_map`, in dict order. -/
def detectCarrier (download_url : String) (additional_info : Option String) :
    Option String :=
  (carrierMap.find? (fun p =>
    strIn p.1 (fnLower download_url) || strIn p.1 (infoLower additional_info))).map (·.2)

/-- The first matching entry of `region_map`. -/
def detectRegion (additional_info : Option String) : Option String :=
  (regionMap.find? (fun p => strIn p.1 (infoLower additional_info))).map (·.2)

/-- The `build_type` cascade of `_detect_image_type`. -/
def detectBuildType (build_version download_url : String)
    (additional_info : Option String) : String :=
  if detectIsBeta build_version download_url then "beta"
  else if strIn "preview" (fnLower download_url) ||
      strIn "preview" (infoLower additional_info) then "preview"
  else if strIn "qpr" (fnLower download_url) ||
      strIn "qpr" (infoLower additional_info) then "qpr"
  else "stable"

/--
Constructing an `AndroidImageInfo` the way `parse_page` /
`get_latest_ota` do: the dataclass constructor followed by
`__post_init__`, which derives `filename` from the locator and runs
`_detect_image_type` and `_extract_security_patch`.  The `is_factory`
value passed by the caller is overwritten by `__post_init__`
(`self.is_factory = "factory" in filename_lower`), so the
`is_factory_arg` parameter is accepted and ignored exactly as in the
source.
-/
def mkAndroidImageInfo (android_version build_version : String)
    (sub_version : Option String) (release_date : String)
    (additional_info : Option String) (download_url : String)
    (checksum : Option String) (_is_factory_arg : Bool) : AndroidImageInfo :=
  { android_version := android_version
    build_version := build_version
    sub_version := sub_version
    release_date := release_date
    additional_info := additional_info
    download_url := download_url
    filename := pyFilename download_url
    is_beta := detectIsBeta build_version download_url
    is_carrier := detectIsCarrier download_url additional_info
    is_factory := detectIsFactory download_url
    is_region_specific := detectIsRegion additional_info
    region := detectRegion additional_info
    carrier := detectCarrier download_url additional_info
    build_type := detectBuildType build_version download_url additional_info
    security_patch_level := extractSecurityPatch build_version
    checksum := checksum }

/-- Code points of a string.  Python compares strings by code points,
so the lexicographic order on `strCodes` is exactly Python's string
order. -/
def strCodes (s : String) : List Nat := s.data.map Char.toNat

/-- Python `int(s)` on a digit string. -/
def natOfDigits (l : List Char) : Nat :=
  l.foldl (fun n c => n * 10 + (c.toNat - 48)) 0

/-- The sort key of `get_version_sort_key`.  The Python key is the tuple
`(float(major), base_build, build_type_priority, variant_priority,
variant_number, image_type_priority)`; here the major is a `Nat`
(`float` of the digit strings the parsers produce orders identically;
on a non-numeric major Python would raise, which the embedding
totalizes to `0`) and the base build string is represented by its code
points, ordered exactly as Python orders the string. -/
abbrev SortKey := Nat × List Nat × Nat × Nat × Nat × Nat

/-- `float(ota_info.android_version.split('.')[0])` (on the digit-string
majors the parsers produce, the numeric order of the float is the `Nat`
order; a non-numeric major, on which Python would raise `ValueError`,
is totalized to `0`). -/
def androidMajor (android_version : String) : Nat :=
  let majorStr := (pySplit '.' android_version).headD ""
  if majorStr.data ≠ [] ∧ majorStr.data.all Char.isDigit
  then natOfDigits majorStr.data else 0

/-- `base_build = '.'.join(build_parts[:3])`. -/
def baseBuild (build_version : String) : String :=
  joinDot ((pySplit '.' build_version).take 3)

/-- The `variant_priority` loop: when a fourth dot-segment exists, its
first character is looked up in `{'a': 1, 'b': 2, 'c': 3, 'd': 4}` via
`variant.startswith(letter)` (case-sensitive, lowercase keys);
no match or no fourth segment gives `0`. -/
def variantPriority (build_version : String) : Nat :=
  match (pySplit '.' build_version).drop 3 with
  | [] => 0
  | variant :: _ =>
    match variant.data with
    | [] => 0
    | ch :: _ =>
      if ch = 'a' then 1 else if ch = 'b' then 2
      else if ch = 'c' then 3 else if ch = 'd' then 4 else 0

/-- `variant_number`: `int(variant[1:])` when `len(variant) > 1` and
`variant[1:].isdigit()`, else `0`. -/
def variantNumber (build_version : String) : Nat :=
  match (pySplit '.' build_version).drop 3 with
  | [] => 0
  | variant :: _ =>
    let rest := variant.data.drop 1
    if rest ≠ [] ∧ rest.all Char.isDigit then natOfDigits rest else 0

/-- `build_type_priority = {"stable": 0, "qpr": 1, "preview": 2,
"beta": 3}.get(build_type, 4)`. -/
def buildTypePriority (build_type : String) : Nat :=
  if build_type = "stable" then 0
  else if build_type = "qpr" then 1
  else if build_type = "preview" then 2
  else if build_type = "beta" then 3
  else 4

/-- `image_type_priority`: `1` for carrier, else `2` for
region-specific, else `0`. -/
def imageTypePriority (is_carrier is_region_specific : Bool) : Nat :=
  if is_carrier then 1 else if is_region_specific then 2 else 0

/-- `get_version_sort_key`, translated clause by clause. -/
def get_version_sort_key (r : AndroidImageInfo) : SortKey :=
  (androidMajor r.android_version, strCodes (baseBuild r.build_version),
    buildTypePriority r.build_type, variantPriority r.build_version,
    variantNumber r.build_version,
    imageTypePriority r.is_carrier r.is_region_specific)

/-! ### Lexicographic order on sort keys

Python compares key tuples lexicographically; `pairLt` is the strict
lexicographic order on a pair built from strict orders on the
components, and `lnLtB` the strict lexicographic order on code-point
lists (Python string `<`). -/

/-- Strict lexicographic order on `List Nat` (Python `<` on strings,
read off their code points; a proper initial segment is smaller). -/
def lnLtB : List Nat → List Nat → Bool
  | [], [] => false
  | [], _ :: _ => true
  | _ :: _, [] => false
  | a :: as, b :: bs => if a < b then true else if b < a then false else lnLtB as bs

/-- Strict lexicographic order on a pair from strict orders on the
components. -/
def pairLt {α β : Type} (ltA : α → α → Prop) (ltB : β → β → Prop)
    (p q : α × β) : Prop :=
  ltA p.1 q.1 ∨ (p.1 = q.1 ∧ ltB p.2 q.2)

instance pairLt.instDecidableRel {α β : Type} (ltA : α → α → Prop)
    (ltB : β → β → Prop) [DecidableEq α] [DecidableRel ltA] [DecidableRel ltB] :
    DecidableRel (pairLt ltA ltB) := fun p q =>
  inferInstanceAs (Decidable (ltA p.1 q.1 ∨ (p.1 = q.1 ∧ ltB p.2 q.2)))

theorem pairLt_trans {α β : Type} {ltA : α → α → Prop} {ltB : β → β → Prop}
    (hA : Transitive ltA) (hB : Transitive ltB) : Transitive (pairLt ltA ltB) := by
  rintro p q r (h1 | ⟨e1, h1⟩) (h2 | ⟨e2, h2⟩)
  · exact Or.inl (hA h1 h2)
  · exact Or.inl (e2 ▸ h1)
  · exact Or.inl (e1 ▸ h2)
  · exact Or.inr ⟨e1.trans e2, hB h1 h2⟩

theorem pairLt_irrefl {α β : Type} {ltA : α → α → Prop} {ltB : β → β → Prop}
    (hA : ∀ x, ¬ ltA x x) (hB : ∀ x, ¬ ltB x x) : ∀ p, ¬ pairLt ltA ltB p p := by
  rintro p (h | ⟨-, h⟩)
  · exact hA _ h
  · exact hB _ h

theorem pairLt_trichot {α β : Type} {ltA : α → α → Prop} {ltB : β → β → Prop}
    (hA : ∀ x y, ltA x y ∨ x = y ∨ ltA y x) (hB : ∀ x y, ltB x y ∨ x = y ∨ ltB y x) :
    ∀ p q, pairLt ltA ltB p q ∨ p = q ∨ pairLt ltA ltB q p := by
  intro p q
  rcases hA p.1 q.1 with h | h | h
  · exact Or.inl (Or.inl h)
  · rcases hB p.2 q.2 with h2 | h2 | h2
    · exact Or.inl (Or.inr ⟨h, h2⟩)
    · exact Or.inr (Or.inl (Prod.ext h h2))
    · exact Or.inr (Or.inr (Or.inr ⟨h.symm, h2⟩))
  · exact Or.inr (Or.inr (Or.inl h))

theorem lnLtB_trans : ∀ x y z : List Nat,
    lnLtB x y = true → lnLtB y z = true → lnLtB x z = true := by
  intro x
  induction x with
  | nil => intro y z hxy hyz; cases y <;> cases z <;> simp_all [lnLtB]
  | cons a as ih =>
    intro y z hxy hyz
    cases y with
    | nil => simp [lnLtB] at hxy
    | cons b bs =>
      cases z with
      | nil => simp [lnLtB] at hyz
      | cons c cs =>
        rw [lnLtB] at hxy hyz ⊢
        have h1 : a < b ∨ (a = b ∧ lnLtB as bs = true) := by
          by_cases h : a < b
          · exact Or.inl h
          · rw [if_neg h] at hxy
            by_cases h' : b < a
            · rw [if_pos h'] at hxy; exact absurd hxy (by simp)
            · rw [if_neg h'] at hxy; exact Or.inr ⟨by omega, hxy⟩
        have h2 : b < c ∨ (b = c ∧ lnLtB bs cs = true) := by
          by_cases h : b < c
          · exact Or.inl h
          · rw [if_neg h] at hyz
            by_cases h' : c < b
            · rw [if_pos h'] at hyz; exact absurd hyz (by simp)
            · rw [if_neg h'] at hyz; exact Or.inr ⟨by omega, hyz⟩
        rcases h1 with h1 | ⟨e1, r1⟩ <;> rcases h2 with h2 | ⟨e2, r2⟩
        · rw [if_pos (by omega : a < c)]
        · rw [if_pos (by omega : a < c)]
        · rw [if_pos (by omega : a < c)]
        · rw [if_neg (by omega : ¬ a < c), if_neg (by omega : ¬ c < a)]
          exact ih bs cs r1 r2

theorem lnLtB_irrefl : ∀ x : List Nat, ¬ lnLtB x x = true := by
  intro x
  induction x with
  | nil => simp [lnLtB]
  | cons a as ih => rw [lnLtB, if_neg (by omega), if_neg (by omega)]; exact ih

theorem lnLtB_trichot : ∀ x y : List Nat,
    lnLtB x y = true ∨ x = y ∨ lnLtB y x = true := by
  intro x
  induction x with
  | nil => intro y; cases y <;> simp [lnLtB]
  | cons a as ih =>
    intro y
    cases y with
    | nil => right; right; simp [lnLtB]
    | cons b bs =>
      rcases Nat.lt_trichotomy a b with h | h | h
      · left; rw [lnLtB, if_pos h]
      · subst h
        rcases ih bs with h2 | h2 | h2
        · left; rw [lnLtB, if_neg (by omega), if_neg (by omega)]; exact h2
        · right; left; rw [h2]
        · right; right; rw [lnLtB, if_neg (by omega), if_neg (by omega)]; exact h2
      · right; right; rw [lnLtB, if_pos h]

/-- Strict order on `Nat`, named so it can be threaded through
`pairLt`. -/
def natLtP : Nat → Nat → Prop := fun a b => a < b

instance : DecidableRel natLtP := fun a b => Nat.decLt a b

/-- Python string `<`, via code points. -/
def lnLtP : List Nat → List Nat → Prop := fun a b => lnLtB a b = true

instance : DecidableRel lnLtP := fun a b => instDecidableEqBool (lnLtB a b) true

theorem natLtP_trans : Transitive natLtP := fun _ _ _ h h' => Nat.lt_trans h h'
theorem natLtP_irrefl : ∀ x, ¬ natLtP x x := Nat.lt_irrefl
theorem natLtP_trichot : ∀ x y, natLtP x y ∨ x = y ∨ natLtP y x := Nat.lt_trichotomy

theorem lnLtP_trans : Transitive lnLtP := fun x y z h h' => lnLtB_trans x y z h h'
theorem lnLtP_irrefl : ∀ x, ¬ lnLtP x x := lnLtB_irrefl
theorem lnLtP_trichot : ∀ x y, lnLtP x y ∨ x = y ∨ lnLtP y x := lnLtB_trichot

/-- Python `<` on sort-key tuples: lexicographic over the six
components. -/
def keyLt : SortKey → SortKey → Prop :=
  pairLt natLtP (pairLt lnLtP (pairLt natLtP (pairLt natLtP (pairLt natLtP natLtP))))

instance : DecidableRel keyLt := fun a b =>
  inferInstanceAs (Decidable (pairLt natLtP (pairLt lnLtP (pairLt natLtP
    (pairLt natLtP (pairLt natLtP natLtP)))) a b))

theorem keyLt_trans : Transitive keyLt :=
  pairLt_trans natLtP_trans (pairLt_trans lnLtP_trans (pairLt_trans natLtP_trans
    (pairLt_trans natLtP_trans (pairLt_trans natLtP_trans natLtP_trans))))

theorem keyLt_irrefl : ∀ k, ¬ keyLt k k :=
  pairLt_irrefl natLtP_irrefl (pairLt_irrefl lnLtP_irrefl (pairLt_irrefl natLtP_irrefl
    (pairLt_irrefl natLtP_irrefl (pairLt_irrefl natLtP_irrefl natLtP_irrefl))))

theorem keyLt_trichot : ∀ k k', keyLt k k' ∨ k = k' ∨ keyLt k' k :=
  pairLt_trichot natLtP_trichot (pairLt_trichot lnLtP_trichot (pairLt_trichot
    natLtP_trichot (pairLt_trichot natLtP_trichot (pairLt_trichot natLtP_trichot
      natLtP_trichot))))

/-- Key comparison lifted to records. -/
def recKeyLt (a b : AndroidImageInfo) : Prop :=
  keyLt (get_version_sort_key a) (get_version_sort_key b)

instance : DecidableRel recKeyLt := fun a b =>
  inferInstanceAs (Decidable (keyLt (get_version_sort_key a) (get_version_sort_key b)))

/-- `a` is placed ahead of `b` by the ranking comparator's descending
(most-preferred-first) order: `sorted(key=..., reverse=True)` puts the
strictly larger key first. -/
def ranksAhead (a b : AndroidImageInfo) : Prop := recKeyLt b a

instance : DecidableRel ranksAhead := fun a b =>
  inferInstanceAs (Decidable (recKeyLt b a))

/-- The non-strict "may precede" relation of the descending sort:
`a` may sit before `b` iff `key a ≥ key b`. -/
def recLe (a b : AndroidImageInfo) : Prop := ¬ recKeyLt a b

instance : DecidableRel recLe := fun a b =>
  inferInstanceAs (Decidable (¬ recKeyLt a b))

instance : IsTrans AndroidImageInfo recLe := by
  constructor
  intro a b c hab hbc hac
  rcases keyLt_trichot (get_version_sort_key a) (get_version_sort_key b) with h | h | h
  · exact hab h
  · exact hbc (show keyLt (get_version_sort_key b) _ from h ▸ hac)
  · exact hbc (keyLt_trans h hac)

instance : IsTotal AndroidImageInfo recLe := by
  constructor
  intro a b
  by_cases h : recKeyLt a b
  · exact Or.inr (fun h' => keyLt_irrefl _ (keyLt_trans h h'))
  · exact Or.inl h

/--
`sorted(device_records, key=self.get_version_sort_key, reverse=True)`:
Python's sort is stable, and a stable sort with respect to a total
preorder has a unique output (descending by key, original order among
equal keys), so the stable `insertionSort` with `recLe` computes
exactly the list Python produces.
-/
def sortRecs (l : List AndroidImageInfo) : List AndroidImageInfo :=
  List.insertionSort recLe l

/-! ### The modern fingerprint-in-filename matcher -/

/-- Python `s.startswith(t)`. -/
def pyStarts (t s : String) : Bool := t.data.isPrefixOf s.data

/-- Character classes of `MODERN_PIXEL_PATTERN`:
`([a-z]+)-ota-([a-z0-9]+)\.([0-9]+)\.([0-9]+)(?:\.([a-z0-9]+))?-`. -/
def isLowerAlnum (c : Char) : Bool := c.isLower || c.isDigit

/--
`MODERN_PIXEL_PATTERN.match(filename)`: the raw captures
`(device, prefix-part, major, minor, optional variant)`.

Each character class of the pattern is disjoint from the literal
(`-ota-`, `.`, `-`) that follows it, so the regex engine's greedy
matching with backtracking coincides with this deterministic
maximal-munch parse; `.match` anchors at the start of the string and
ignores trailing input after the final `-`.
-/
def modernPixelMatch (filename : String) :
    Option (String × String × String × String × Option String) :=
  let (dev, r1) := filename.data.span Char.isLower
  if dev.isEmpty then none
  else if r1.take 5 ≠ ['-', 'o', 't', 'a', '-'] then none
  else
    let (g2, r2) := (r1.drop 5).span isLowerAlnum
    if g2.isEmpty then none
    else match r2 with
    | '.' :: r3 =>
      let (g3, r4) := r3.span Char.isDigit
      if g3.isEmpty then none
      else match r4 with
      | '.' :: r5 =>
        let (g4, r6) := r5.span Char.isDigit
        if g4.isEmpty then none
        else match r6 with
        | '-' :: _ =>
          some (String.mk dev, String.mk g2, String.mk g3, String.mk g4, none)
        | '.' :: r7 =>
          let (g5, r8) := r7.span isLowerAlnum
          if g5.isEmpty then none
          else match r8 with
          | '-' :: _ =>
            some (String.mk dev, String.mk g2, String.mk g3, String.mk g4,
              some (String.mk g5))
          | _ => none
        | _ => none
      | _ => none
    | _ => none

/--
`parse_modern_pixel_filename`, translated clause by clause.  The body
reads the regex captures, upper-cases the prefix part, rejects `OPR`
prefixes (returning `None` to force legacy parsing), maps the prefix
to an Android version by the fixed table, and rebuilds the build
version with the f-string `f"{build_prefix}{build_major}.{build_minor}"`
(note: the source string has no `.` between the prefix and the date
segment) plus an optional `.variant` suffix.

The `device` capture is bound in the source (`device = groups[0]`) but
does not appear in the returned tuple
`(android_version, build_version, None, release_date, None)`.

`rowDate` stands for the release date the source pulls out of the
surrounding table row when one exists (`parent_row` +
`parse_version_text`, an HTML collaborator): `release_date` stays
`"Unknown"` unless that extraction succeeds.
-/
def parse_modern_pixel_filename (filename : String) (rowDate : Option String) :
    Option (String × String × Option String × String × Option String) :=
  match modernPixelMatch filename with
  | none => none
  | some (_device, prefixPart, build_major, build_minor, build_variant) =>
    let prefixUp := pyUpper prefixPart
    if pyStarts "OPR" prefixUp then
      -- legacy device build: return None to force legacy format parsing
      none
    else
      let android_version :=
        if pyStarts "BP" prefixUp || pyStarts "AP4" prefixUp then "15.0.0"
        else if pyStarts "AP3" prefixUp then "14.0.0"
        else if pyStarts "AP2" prefixUp then "14.0.0"
        else "13.0.0"
      let build_version := prefixUp ++ build_major ++ "." ++ build_minor
      let build_version :=
        match build_variant with
        | some v => build_version ++ "." ++ v
        | none => build_version
      let release_date := rowDate.getD "Unknown"
      some (android_version, build_version, none, release_date, none)

/-! ### Selection pipeline: the pure tail of `get_latest_ota`
(lines 1235-1302), applied to the device's record list. -/

/-- The filtering options of `get_latest_ota` (its keyword
parameters). -/
structure OtaOptions where
  include_beta : Bool
  prefer_stable : Bool
  include_carrier : Bool
  include_region_specific : Bool
  carrier : Option String
  region : Option String
  specific_build : Option String
deriving DecidableEq

/-- Python truthiness of an `Optional[str]`: `None` and `""` are
falsy. -/
def optTruthy (s : Option String) : Bool :=
  match s with
  | some x => !x.data.isEmpty
  | none => false

/-- `if specific_build: filtered = [ota for ... if ota.build_version ==
specific_build]`. -/
def stageSpecific (o : OtaOptions) (l : List AndroidImageInfo) :
    List AndroidImageInfo :=
  if optTruthy o.specific_build
  then l.filter (fun r => r.build_version == o.specific_build.getD "")
  else l

/-- `if not include_beta: filtered = [ota for ... if not ota.is_beta]`. -/
def stageBeta (o : OtaOptions) (l : List AndroidImageInfo) : List AndroidImageInfo :=
  if o.include_beta then l else l.filter (fun r => !r.is_beta)

/-- `if not include_carrier: ...`. -/
def stageCarrier (o : OtaOptions) (l : List AndroidImageInfo) : List AndroidImageInfo :=
  if o.include_carrier then l else l.filter (fun r => !r.is_carrier)

/-- `if not include_region_specific: ...`. -/
def stageRegion (o : OtaOptions) (l : List AndroidImageInfo) : List AndroidImageInfo :=
  if o.include_region_specific then l else l.filter (fun r => !r.is_region_specific)

/-- `if carrier: filtered = [ota for ... if ota.carrier == carrier]`
(Python `None == carrier` is `False`, so records without a carrier are
dropped). -/
def stageCarrierName (o : OtaOptions) (l : List AndroidImageInfo) :
    List AndroidImageInfo :=
  if optTruthy o.carrier
  then l.filter (fun r => r.carrier == some (o.carrier.getD ""))
  else l

/-- `if region: filtered = [ota for ... if ota.region == region]`. -/
def stageRegionName (o : OtaOptions) (l : List AndroidImageInfo) :
    List AndroidImageInfo :=
  if optTruthy o.region
  then l.filter (fun r => r.region == some (o.region.getD ""))
  else l

/-- The filter steps that follow the specific-build step, in source
order. -/
def filterRest (o : OtaOptions) (l : List AndroidImageInfo) : List AndroidImageInfo :=
  stageRegionName o (stageCarrierName o (stageRegion o (stageCarrier o
    (stageBeta o l))))

/-- The composition of all six filter steps of `get_latest_ota`, in
source order. -/
def filterOtas (o : OtaOptions) (l : List AndroidImageInfo) : List AndroidImageInfo :=
  filterRest o (stageSpecific o l)

/--
The pure selection tail of `get_latest_ota`, starting from the
device's `matching_otas` list (the HTTP fetch and HTML traversal that
produce that list are the I/O shell): early `None` on an empty record
list, the specific-build filter with its terminal empty check, the
beta/carrier/region/carrier-name/region-name filters with a common
empty check, the descending sort, and the `prefer_stable` first-stable
fallback.
-/
def get_latest_ota_select (matching_otas : List AndroidImageInfo)
    (o : OtaOptions) : Option AndroidImageInfo :=
  if matching_otas.isEmpty then none
  else
    let f1 := stageSpecific o matching_otas
    if optTruthy o.specific_build && f1.isEmpty then none
    else
      let filtered := filterRest o f1
      if filtered.isEmpty then none
      else
        let all_sorted_otas := sortRecs filtered
        if o.prefer_stable then
          match all_sorted_otas.filter (fun r => r.build_type == "stable") with
          | s :: _ => some s
          | [] => all_sorted_otas.head?
        else all_sorted_otas.head?

/-! ### Snapshot differ: `find_new_images` -/

/-- A snapshot: device codename → record sequence.  Python's `Dict` is
modeled as an association list with distinct keys (insertion order,
first-match lookup). -/
abbrev Snapshot := List (String × List AndroidImageInfo)

/-- `device in data` / `data[device]` for the snapshot dictionaries. -/
def snapLookup (d : Snapshot) (k : String) : Option (List AndroidImageInfo) :=
  (d.find? (fun p => p.1 == k)).map (·.2)

/-- `find_new_images`, translated clause by clause: a device absent
from `old_data` contributes its entire list; otherwise a record is new
iff no old record for the device has the same
`(android_version, build_version)`; devices whose `new_device_otas`
list is empty are skipped in the else-branch. -/
def find_new_images (old_data new_data : Snapshot) : Snapshot :=
  new_data.filterMap (fun p =>
    match snapLookup old_data p.1 with
    | none => some p
    | some old_otas =>
      let new_device_otas := p.2.filter (fun n =>
        !(old_otas.any (fun o =>
          n.android_version == o.android_version &&
          n.build_version == o.build_version)))
      if new_device_otas.isEmpty then none else some (p.1, new_device_otas))

/-! ### Checksum binder: the `checksum_map` of `parse_page` -/

/-- `download_url.rstrip('/').lower()`. -/
def normalizeUrl (u : String) : String :=
  pyLower (String.mk (u.data.reverse.dropWhile (fun c => c = '/')).reverse)

/-- A hexadecimal character, the class `[a-fA-F0-9]`. -/
def isHexChar (c : Char) : Bool :=
  c.isDigit || (97 ≤ c.toNat && c.toNat ≤ 102) || (65 ≤ c.toNat && c.toNat ≤ 70)

/-- `re.search(r'^[a-fA-F0-9]{64}', checksum)` and `.group(0)`: the
first 64 characters when they are all hexadecimal, else no match (an
empty cell, `None` in the source by the `if checksum` guard, has fewer
than 64 characters and also yields no match). -/
def extractSha256 (cell : String) : Option String :=
  let cs := cell.data
  if 64 ≤ cs.length ∧ (cs.take 64).all isHexChar
  then some (String.mk (cs.take 64)) else none

/-- Python dict assignment `m[k] = v`: overwrite in place, else append
(dicts preserve insertion order). -/
def dictInsert : List (String × String) → String → String → List (String × String)
  | [], k, v => [(k, v)]
  | p :: rest, k, v => if p.1 == k then (k, v) :: rest else p :: dictInsert rest k v

/-- Python dict `m.get(k)`. -/
def mapGet : List (String × String) → String → Option String
  | [], _ => none
  | p :: rest, k => if p.1 == k then some p.2 else mapGet rest k

/-- One iteration of the `checksum_map` loop: a row binds
`normalized_url → sha256_match.group(0)` when its cell has a leading
64-hex-character run, and writes nothing otherwise. -/
def checksumStep (m : List (String × String)) (row : String × String) :
    List (String × String) :=
  match extractSha256 row.2 with
  | some v => dictInsert m (normalizeUrl row.1) v
  | none => m

/--
The `checksum_map` loop of `parse_page`: every table row is abstracted
to the pair (download link `href`, checksum cell text) — rows without a
link or with fewer than three cells never produce such a pair.
-/
def buildChecksumMap (rows : List (String × String)) : List (String × String) :=
  rows.foldl checksumStep []

/-- `checksum_map.get(normalized_url)`: the checksum bound to a
record whose download locator is `download_url`. -/
def bindChecksum (rows : List (String × String)) (download_url : String) :
    Option String :=
  mapGet (buildChecksumMap rows) (normalizeUrl download_url)

/-! ### `get_latest_factory_image` -/

/--
The pure tail of `get_latest_factory_image` over the parsed factory
snapshot: look the device up, and if it has a non-empty record list,
sort descending and return the first element.  The source function
accepts `**kwargs` ("Additional arguments for filtering") but its body
never reads them, so the `kwargs` parameter is accepted and unused
here exactly as in the source.
-/
def get_latest_factory_image (data : Snapshot) (device_codename : String)
    (_kwargs : OtaOptions) : Option AndroidImageInfo :=
  match snapLookup data device_codename with
  | some images => if images.isEmpty then none else (sortRecs images).head?
  | none => none

example :
    (mkAndroidImageInfo "15.0.0" "AP4A.250205.002" none "Unknown" none
      "https://x/shiba-ota-ap4a.250205.002-abc.zip" none false).security_patch_level
      = some "2025-02" := by decide

example :
    parse_modern_pixel_filename "husky-ota-bp1a.250305.019-b4977f37.zip" none
      = some ("15.0.0", "BP1A250305.019", none, "Unknown", none) := by decide

example :
    modernPixelMatch "husky-ota-bp1a.250305.019-b4977f37.zip"
      = some ("husky", "bp1a", "250305", "019", none) := by decide

example :
    parse_modern_pixel_filename "fugu-ota-opr2.170623.027-d1a428a5.zip" none
      = none := by decide

example :
    (sortRecs [mkAndroidImageInfo "15.0.0" "AP4A.250205.002" none "Unknown" none
        "https://x/a.zip" none false,
      mkAndroidImageInfo "15.0.0" "AP4A.250205.002.B1" none "Unknown" none
        "https://x/a.zip" none false]).map (·.build_version)
      = ["AP4A.250205.002.B1", "AP4A.250205.002"] := by decide

example :
    (mkAndroidImageInfo "15.0.0" "AP4A.250205.002.B1" none "Unknown" none
      "https://x/a.zip" none false).is_beta = true := by decide

example :
    (mkAndroidImageInfo "15.0.0" "AP4A.250205.002" none "Unknown" (some "qpr1")
      "https://x/a.zip" none false).build_type = "qpr" := by decide

/-! ## Helper lemmas shared by the claim theorems -/

/-- The sort key of a normalized record, in terms of the derivation
functions. -/
theorem get_version_sort_key_mk (av bv : String) (sv : Option String)
    (rd : String) (ai : Option String) (url : String) (cs : Option String)
    (fac : Bool) :
    get_version_sort_key (mkAndroidImageInfo av bv sv rd ai url cs fac) =
      (androidMajor av, strCodes (baseBuild bv),
       buildTypePriority (detectBuildType bv url ai), variantPriority bv,
       variantNumber bv,
       imageTypePriority (detectIsCarrier url ai) (detectIsRegion ai)) := rfl

/-- `_detect_image_type` only ever produces the four build types. -/
theorem detectBuildType_cases (bv url : String) (ai : Option String) :
    detectBuildType bv url ai = "beta" ∨ detectBuildType bv url ai = "preview" ∨
    detectBuildType bv url ai = "qpr" ∨ detectBuildType bv url ai = "stable" := by
  unfold detectBuildType
  split_ifs <;> simp

/-- The four build types all have priority at most 3. -/
theorem buildTypePriority_le (bt : String)
    (h : bt = "beta" ∨ bt = "preview" ∨ bt = "qpr" ∨ bt = "stable") :
    buildTypePriority bt ≤ 3 := by
  rcases h with h | h | h | h <;> subst h <;> decide

/-! ## Claim C1 -/

/--
C1, counterexample.  The claim: for two records identical except that
one has fingerprint `AP4A.250205.002` and the other
`AP4A.250205.002.B1`, the descending order places the non-variant
record first.  On the code the opposite happens: the descending sort
(`reverse=True`, larger key tuple first) places the `B1` record ahead
of the non-variant record.
-/
theorem c1_counterexample :
    sortRecs
        [mkAndroidImageInfo "15.0.0" "AP4A.250205.002" none "Unknown" none
          "https://x/a.zip" none false,
         mkAndroidImageInfo "15.0.0" "AP4A.250205.002.B1" none "Unknown" none
          "https://x/a.zip" none false]
      = [mkAndroidImageInfo "15.0.0" "AP4A.250205.002.B1" none "Unknown" none
          "https://x/a.zip" none false,
         mkAndroidImageInfo "15.0.0" "AP4A.250205.002" none "Unknown" none
          "https://x/a.zip" none false]
    ∧ ranksAhead
        (mkAndroidImageInfo "15.0.0" "AP4A.250205.002.B1" none "Unknown" none
          "https://x/a.zip" none false)
        (mkAndroidImageInfo "15.0.0" "AP4A.250205.002" none "Unknown" none
          "https://x/a.zip" none false)
    ∧ ¬ ranksAhead
        (mkAndroidImageInfo "15.0.0" "AP4A.250205.002" none "Unknown" none
          "https://x/a.zip" none false)
        (mkAndroidImageInfo "15.0.0" "AP4A.250205.002.B1" none "Unknown" none
          "https://x/a.zip" none false) := by
  refine ⟨by decide, by decide, by decide⟩

/--
C1, amended.  For any two Build Records identical except that one has
build fingerprint `AP4A.250205.002` and the other `AP4A.250205.002.B1`,
the ranking comparator's descending order places the `B1`-variant
record ahead of the non-variant record: the `.B1` suffix makes the
record beta by the `".b" in build_version.lower()` rule (build-type
priority 3, at least as large as the non-variant record's), the
uppercase `B1` misses the lowercase `a`-`d` variant-letter map (variant
priority 0 for both), its variant number is 1 versus 0, and the
descending sort places the strictly larger key first.
-/
theorem c1_amended_variant_ranks_ahead (av : String) (sv : Option String)
    (rd : String) (ai : Option String) (url : String) (cs : Option String)
    (fac : Bool) :
    ranksAhead
      (mkAndroidImageInfo av "AP4A.250205.002.B1" sv rd ai url cs fac)
      (mkAndroidImageInfo av "AP4A.250205.002" sv rd ai url cs fac) := by
  unfold ranksAhead recKeyLt
  rw [get_version_sort_key_mk, get_version_sort_key_mk]
  have h2 : detectBuildType "AP4A.250205.002.B1" url ai = "beta" := by
    unfold detectBuildType detectIsBeta
    rw [show strIn ".b" (pyLower "AP4A.250205.002.B1") = true from by decide,
      Bool.or_true]
    rfl
  rw [h2]
  rw [show buildTypePriority "beta" = 3 from by decide,
      show variantPriority "AP4A.250205.002.B1" = 0 from by decide,
      show variantNumber "AP4A.250205.002.B1" = 1 from by decide,
      show variantPriority "AP4A.250205.002" = 0 from by decide,
      show variantNumber "AP4A.250205.002" = 0 from by decide]
  unfold keyLt pairLt natLtP lnLtP
  dsimp only
  refine Or.inr ⟨rfl, Or.inr ⟨by decide, ?_⟩⟩
  have hle := buildTypePriority_le _ (detectBuildType_cases "AP4A.250205.002" url ai)
  rcases Nat.lt_trichotomy
      (buildTypePriority (detectBuildType "AP4A.250205.002" url ai)) 3 with h | h | h
  · exact Or.inl h
  · exact Or.inr ⟨h, Or.inr ⟨rfl, Or.inl (by omega)⟩⟩
  · omega

/-! ## Claim C2 -/

/--
C2: the claim states that with equal Android major version and equal
base fingerprint, a stable record sorts ahead of a qpr/preview/beta
one (priority `stable(0) < qpr(1)`, lower first).  The code's own
comment (`# 3. Build type priority (stable > qpr > preview > beta)`)
says the same, but `sorted(..., reverse=True)` places the *larger* key
first, so the qpr record (priority 1) sorts ahead of the stable record
(priority 0).  This theorem evaluates the code at the failing input:
two records for one device, same Android major version `15`, same base
fingerprint `AP4A.250205.002`, one `stable` and one `qpr`.
-/
theorem c2_stable_sorts_behind_qpr :
    (mkAndroidImageInfo "15.0.0" "AP4A.250205.002" none "Unknown" none
      "https://x/a.zip" none false).build_type = "stable"
    ∧ (mkAndroidImageInfo "15.0.0" "AP4A.250205.002" none "Unknown" (some "qpr1")
      "https://x/a.zip" none false).build_type = "qpr"
    ∧ sortRecs
        [mkAndroidImageInfo "15.0.0" "AP4A.250205.002" none "Unknown" none
          "https://x/a.zip" none false,
         mkAndroidImageInfo "15.0.0" "AP4A.250205.002" none "Unknown" (some "qpr1")
          "https://x/a.zip" none false]
      = [mkAndroidImageInfo "15.0.0" "AP4A.250205.002" none "Unknown" (some "qpr1")
          "https://x/a.zip" none false,
         mkAndroidImageInfo "15.0.0" "AP4A.250205.002" none "Unknown" none
          "https://x/a.zip" none false]
    ∧ ranksAhead
        (mkAndroidImageInfo "15.0.0" "AP4A.250205.002" none "Unknown" (some "qpr1")
          "https://x/a.zip" none false)
        (mkAndroidImageInfo "15.0.0" "AP4A.250205.002" none "Unknown" none
          "https://x/a.zip" none false) := by
  refine ⟨by decide, by decide, by decide, by decide⟩

/-! ## Claim C3 -/

/--
C3: dispatching `husky-ota-bp1a.250305.019-b4977f37.zip` through the
modern fingerprint-in-filename matcher.  The regex captures device
`husky` and prefix `bp1a`, and the `BP` prefix maps to Android
`15.0.0` as the claim states, but the matcher's output differs from
the claim: the f-string `f"{build_prefix}{build_major}.{build_minor}"`
drops the dot between the prefix and the date segment, producing
`BP1A250305.019` instead of `BP1A.250305.019`, and the returned tuple
`(android_version, build_version, None, release_date, None)` carries
no device codename at all.
-/
theorem c3_modern_filename_eval :
    parse_modern_pixel_filename "husky-ota-bp1a.250305.019-b4977f37.zip" none
      = some ("15.0.0", "BP1A250305.019", none, "Unknown", none)
    ∧ modernPixelMatch "husky-ota-bp1a.250305.019-b4977f37.zip"
      = some ("husky", "bp1a", "250305", "019", none)
    ∧ "BP1A250305.019" ≠ "BP1A.250305.019" := by
  refine ⟨by decide, by decide, by decide⟩

/-! ## Claim C4 -/

/--
C4, counterexample.  The claim: `security_patch_level` is set iff the
fingerprint's second dot-segment is exactly 6 *digits*.  The code only
checks the segment's length (`if len(patch) == 6`), so the six-letter
segment `ABCDEF` also sets the field, to the junk value `20AB-CD`.
-/
theorem c4_counterexample :
    (mkAndroidImageInfo "15.0.0" "AAAA.ABCDEF.002" none "Unknown" none
      "https://x/a.zip" none false).security_patch_level = some "20AB-CD"
    ∧ "ABCDEF".data.all Char.isDigit = false := by
  refine ⟨by decide, by decide⟩

/--
C4, amended.  For every Build Record produced by the normalizer,
`security_patch_level` is set iff the fingerprint's second
dot-delimited segment has length exactly 6 (whatever its characters),
in which case it equals `"20" ++ segment[:2] ++ "-" ++ segment[2:4]`;
fingerprint `AP4A.250205.002` yields `"2025-02"`, and a fingerprint
with fewer than two dot-segments leaves the field unset.
-/
theorem c4_security_patch_characterization :
    (∀ av bv : String, ∀ sv : Option String, ∀ rd : String, ∀ ai : Option String,
      ∀ url : String, ∀ cs : Option String, ∀ fac : Bool,
      ((mkAndroidImageInfo av bv sv rd ai url cs fac).security_patch_level ≠ none
        ↔ ∃ pre patch rest, pySplit '.' bv = pre :: patch :: rest ∧ patch.length = 6)
      ∧ ∀ pre patch rest, pySplit '.' bv = pre :: patch :: rest → patch.length = 6 →
          (mkAndroidImageInfo av bv sv rd ai url cs fac).security_patch_level =
            some ("20" ++ pyTake patch 2 ++ "-" ++ pyTake (pyDrop patch 2) 2))
    ∧ (mkAndroidImageInfo "15.0.0" "AP4A.250205.002" none "Unknown" none
        "https://x/a.zip" none false).security_patch_level = some "2025-02"
    ∧ (mkAndroidImageInfo "2.3.7" "GWK74" none "Unknown" none
        "https://x/a.zip" none false).security_patch_level = none := by
  refine ⟨?_, by decide, by decide⟩
  intro av bv sv rd ai url cs fac
  constructor
  · show extractSecurityPatch bv ≠ none ↔ _
    unfold extractSecurityPatch
    cases hp : pySplit '.' bv with
    | nil => simp
    | cons a t =>
      cases t with
      | nil => simp
      | cons p rest =>
        by_cases h6 : p.length = 6
        · simp only [h6]
          simp
          exact ⟨fun _ => ⟨a, p, ⟨rfl, rfl⟩, h6⟩, fun _ => h6⟩
        · simp [h6]
  · intro pre patch rest hsplit hlen
    show extractSecurityPatch bv = _
    unfold extractSecurityPatch
    rw [hsplit]
    simp [hlen]

/-- C4, witness: the characterization applied to the fingerprint
`AP4A.250205.002`, whose second segment `250205` has length 6. -/
theorem c4_security_patch_witness :
    (mkAndroidImageInfo "15.0.0" "AP4A.250205.002" none "Unknown" none
      "https://x/a.zip" none false).security_patch_level =
      some ("20" ++ pyTake "250205" 2 ++ "-" ++ pyTake (pyDrop "250205" 2) 2) := by
  exact (c4_security_patch_characterization.1 "15.0.0" "AP4A.250205.002" none
    "Unknown" none "https://x/a.zip" none false).2 "AP4A" "250205" ["002"]
    (by decide) (by decide)

/-! ## Claim C5 -/

/--
C5: for every Build Record produced by the normalizer, `is_beta` holds
iff `build_type = "beta"`: `_detect_image_type` sets
`build_type = "beta"` exactly when `is_beta` is true, and otherwise
picks one of `"preview"`, `"qpr"`, `"stable"`.
-/
theorem c5_is_beta_iff_build_type_beta (av bv : String) (sv : Option String)
    (rd : String) (ai : Option String) (url : String) (cs : Option String)
    (fac : Bool) :
    (mkAndroidImageInfo av bv sv rd ai url cs fac).is_beta = true ↔
    (mkAndroidImageInfo av bv sv rd ai url cs fac).build_type = "beta" := by
  show detectIsBeta bv url = true ↔ detectBuildType bv url ai = "beta"
  unfold detectBuildType
  by_cases h : detectIsBeta bv url = true
  · simp [h]
  · simp only [h, Bool.false_eq_true, if_false]
    constructor
    · intro hfalse; exact absurd hfalse (by simp [h])
    · intro hcontra
      split_ifs at hcontra <;> simp_all

/-! ## Claim C6 -/

/-- Membership through a stage of shape `if c then filter p l else l`. -/
theorem mem_of_stage_pos {c : Prop} [Decidable c] {p : AndroidImageInfo → Bool}
    {l : List AndroidImageInfo} {r : AndroidImageInfo}
    (h : r ∈ (if c then List.filter p l else l)) : r ∈ l := by
  split_ifs at h
  · exact List.mem_of_mem_filter h
  · exact h

/-- Membership through a stage of shape `if c then l else filter p l`. -/
theorem mem_of_stage_neg {c : Prop} [Decidable c] {p : AndroidImageInfo → Bool}
    {l : List AndroidImageInfo} {r : AndroidImageInfo}
    (h : r ∈ (if c then l else List.filter p l)) : r ∈ l := by
  split_ifs at h
  · exact h
  · exact List.mem_of_mem_filter h

theorem mem_of_stageSpecific {o : OtaOptions} {l r} (h : r ∈ stageSpecific o l) :
    r ∈ l := mem_of_stage_pos (by unfold stageSpecific at h; exact h)

theorem mem_of_stageBeta {o : OtaOptions} {l r} (h : r ∈ stageBeta o l) :
    r ∈ l := mem_of_stage_neg (by unfold stageBeta at h; exact h)

theorem mem_of_stageCarrier {o : OtaOptions} {l r} (h : r ∈ stageCarrier o l) :
    r ∈ l := mem_of_stage_neg (by unfold stageCarrier at h; exact h)

theorem mem_of_stageRegion {o : OtaOptions} {l r} (h : r ∈ stageRegion o l) :
    r ∈ l := mem_of_stage_neg (by unfold stageRegion at h; exact h)

theorem mem_of_stageCarrierName {o : OtaOptions} {l r}
    (h : r ∈ stageCarrierName o l) : r ∈ l :=
  mem_of_stage_pos (by unfold stageCarrierName at h; exact h)

theorem mem_of_stageRegionName {o : OtaOptions} {l r}
    (h : r ∈ stageRegionName o l) : r ∈ l :=
  mem_of_stage_pos (by unfold stageRegionName at h; exact h)

/-- All stages map the empty list to the empty list. -/
theorem filterRest_nil (o : OtaOptions) : filterRest o [] = [] := by
  unfold filterRest stageRegionName stageCarrierName stageRegion stageCarrier stageBeta
  split_ifs <;> simp

/-- The descending sort of a non-empty list is non-empty. -/
theorem sortRecs_ne_nil {l : List AndroidImageInfo} (h : l ≠ []) :
    sortRecs l ≠ [] := by
  intro e
  exact h ((List.perm_insertionSort recLe l).symm.trans (e ▸ List.Perm.refl _)).eq_nil

/-- Members of the sorted list are members of the input. -/
theorem mem_of_mem_sortRecs {l : List AndroidImageInfo} {r : AndroidImageInfo}
    (h : r ∈ sortRecs l) : r ∈ l :=
  (List.perm_insertionSort recLe l).mem_iff.mp h

/--
C6: the selection pipeline returns not-found exactly when its filter
steps leave no candidate: (1) `get_latest_ota`'s selection yields
`None` iff the six filter steps (specific build, beta, carrier,
region, carrier name, region name) leave the empty list — in
particular a specific build with no exact match is terminal, with no
fallback past the filters; (2) when a record is returned it belongs to
the filtered set; (3) for a device whose records are all beta or
carrier builds, a selection with `include_beta=False` and
`include_carrier=False` returns `None`.
-/
theorem c6_selection_not_found :
    (∀ otas o, get_latest_ota_select otas o = none ↔ filterOtas o otas = [])
    ∧ (∀ otas o r, get_latest_ota_select otas o = some r → r ∈ filterOtas o otas)
    ∧ (∀ otas o, o.include_beta = false → o.include_carrier = false →
        (∀ r ∈ otas, r.is_beta = true ∨ r.is_carrier = true) →
        get_latest_ota_select otas o = none) := by
  have hnone : ∀ otas o, get_latest_ota_select otas o = none ↔ filterOtas o otas = [] := by
    intro otas o
    unfold get_latest_ota_select filterOtas
    by_cases h0 : otas.isEmpty
    · rw [if_pos h0]
      have : otas = [] := List.isEmpty_iff.mp h0
      subst this
      simp [stageSpecific, filterRest_nil]
    · rw [if_neg h0]
      by_cases h1 : (optTruthy o.specific_build && (stageSpecific o otas).isEmpty) = true
      · rw [if_pos h1]
        have h1' : (stageSpecific o otas).isEmpty = true := by
          have := h1
          simp only [Bool.and_eq_true] at this
          exact this.2
        rw [List.isEmpty_iff.mp h1', filterRest_nil]
        simp
      · rw [if_neg h1]
        by_cases h2 : (filterRest o (stageSpecific o otas)).isEmpty
        · rw [if_pos h2]
          simp [List.isEmpty_iff.mp h2]
        · rw [if_neg h2]
          have hL : filterRest o (stageSpecific o otas) ≠ [] := by
            intro e
            exact h2 (by rw [e]; rfl)
          have hs := sortRecs_ne_nil hL
          constructor
          · intro hsel
            exfalso
            rcases hsort : sortRecs (filterRest o (stageSpecific o otas)) with _ | ⟨s, ss⟩
            · exact hs hsort
            · rw [hsort] at hsel
              by_cases hps : o.prefer_stable
              · rw [if_pos hps] at hsel
                rcases hflt : (s :: ss).filter (fun r => r.build_type == "stable") with _ | ⟨t, ts⟩
                · rw [hflt] at hsel
                  simp at hsel
                · rw [hflt] at hsel
                  simp at hsel
              · rw [if_neg hps] at hsel
                simp at hsel
          · intro e
            exact absurd e hL
  refine ⟨hnone, ?_, ?_⟩
  · intro otas o r hsel
    unfold get_latest_ota_select at hsel
    by_cases h0 : otas.isEmpty
    · rw [if_pos h0] at hsel; exact absurd hsel (by simp)
    · rw [if_neg h0] at hsel
      by_cases h1 : (optTruthy o.specific_build && (stageSpecific o otas).isEmpty) = true
      · rw [if_pos h1] at hsel; exact absurd hsel (by simp)
      · rw [if_neg h1] at hsel
        by_cases h2 : (filterRest o (stageSpecific o otas)).isEmpty
        · rw [if_pos h2] at hsel; exact absurd hsel (by simp)
        · rw [if_neg h2] at hsel
          show r ∈ filterRest o (stageSpecific o otas)
          by_cases hps : o.prefer_stable
          · rw [if_pos hps] at hsel
            rcases hflt : (sortRecs (filterRest o (stageSpecific o otas))).filter
                (fun x => x.build_type == "stable") with _ | ⟨t, ts⟩
            · rw [hflt] at hsel
              rcases hsort : sortRecs (filterRest o (stageSpecific o otas)) with _ | ⟨s, ss⟩
              · have hL : filterRest o (stageSpecific o otas) ≠ [] := by
                  intro e; exact h2 (by rw [e]; rfl)
                exact absurd hsort (sortRecs_ne_nil hL)
              · rw [hsort] at hsel
                simp only [List.head?_cons, Option.some.injEq] at hsel
                subst hsel
                exact mem_of_mem_sortRecs (by rw [hsort]; exact List.mem_cons_self _ _)
            · rw [hflt] at hsel
              simp only [Option.some.injEq] at hsel
              have hmem : t ∈ (sortRecs (filterRest o (stageSpecific o otas))).filter
                  (fun x => x.build_type == "stable") := by
                rw [hflt]; exact List.mem_cons_self _ _
              rw [← hsel]
              exact mem_of_mem_sortRecs (List.mem_of_mem_filter hmem)
          · rw [if_neg hps] at hsel
            rcases hsort : sortRecs (filterRest o (stageSpecific o otas)) with _ | ⟨s, ss⟩
            · have hL : filterRest o (stageSpecific o otas) ≠ [] := by
                intro e; exact h2 (by rw [e]; rfl)
              exact absurd hsort (sortRecs_ne_nil hL)
            · rw [hsort] at hsel
              simp only [List.head?_cons, Option.some.injEq] at hsel
              subst hsel
              exact mem_of_mem_sortRecs (by rw [hsort]; exact List.mem_cons_self _ _)
  · intro otas o hbeta hcarrier hall
    rw [hnone otas o]
    rw [List.eq_nil_iff_forall_not_mem]
    intro r hr
    unfold filterOtas filterRest at hr
    have hr1 : r ∈ stageCarrier o (stageBeta o (stageSpecific o otas)) :=
      mem_of_stageRegion (mem_of_stageCarrierName (mem_of_stageRegionName hr))
    unfold stageCarrier at hr1
    rw [hcarrier] at hr1
    simp only [Bool.false_eq_true, if_false] at hr1
    have ⟨hr2, hcar⟩ := List.mem_filter.mp hr1
    unfold stageBeta at hr2
    rw [hbeta] at hr2
    simp only [Bool.false_eq_true, if_false] at hr2
    have ⟨hr3, hbet⟩ := List.mem_filter.mp hr2
    rcases hall r (mem_of_stageSpecific hr3) with h | h
    · rw [h] at hbet; simp at hbet
    · rw [h] at hcar; simp at hcar

/-- C6, witness: a device with one beta and one carrier build, selected
with `include_beta = false` and `include_carrier = false`, yields
not-found. -/
theorem c6_selection_not_found_witness :
    get_latest_ota_select
      [mkAndroidImageInfo "15.0.0" "AP4A.250205.002.B1" none "Unknown" none
        "https://x/a.zip" none false,
       mkAndroidImageInfo "15.0.0" "AP4A.250205.002" none "Unknown" (some "verizon")
        "https://x/a.zip" none false]
      ⟨false, true, false, false, none, none, none⟩ = none := by
  exact c6_selection_not_found.2.2 _ _ rfl rfl (by decide)

/-! ## Claim C7 -/

/-- The records of `otas` that are new for `device` relative to
`old_data`: all of them when the device is absent from `old_data`,
otherwise those with no identity match among the device's old
records. -/
def newsOf (old_data : Snapshot) (device : String)
    (otas : List AndroidImageInfo) : List AndroidImageInfo :=
  match snapLookup old_data device with
  | none => otas
  | some old_otas => otas.filter (fun n =>
      !(old_otas.any (fun o =>
        n.android_version == o.android_version &&
        n.build_version == o.build_version)))

/--
C7, counterexample.  The claim: devices with no new records are
omitted from the differ's output.  The `device not in old_data` branch
copies the device's entire sequence *unconditionally*, so a device
absent from the old snapshot whose new-snapshot sequence is empty is
reported with an empty record list instead of being omitted.
-/
theorem c7_counterexample :
    find_new_images [] [("x", [])] = [("x", [])] ∧ ([] : List AndroidImageInfo) = [] := by
  refine ⟨by decide, rfl⟩

/--
C7, amended.  For every pair of snapshots, the differ reports exactly
the devices of the new snapshot paired with their new records — those
with no `(android_version, build_version)` identity match among the
device's old records, the entire sequence when the device is absent
from the old snapshot — and a device is dropped from the output when
its new-record list is empty, except that a device absent from the old
snapshot keeps its (possibly empty) whole sequence.  Reported records
are characterized by identity only: a record whose other fields
(checksum, dates, flags) changed but whose identity pair matches an
old record is not reported.
-/
theorem c7_differ_characterization :
    ∀ old_data new_data : Snapshot, ∀ d : String, ∀ l : List AndroidImageInfo,
      ((d, l) ∈ find_new_images old_data new_data ↔
        ∃ otas, (d, otas) ∈ new_data ∧ l = newsOf old_data d otas ∧
          (snapLookup old_data d = none ∨ l ≠ []))
      ∧ (∀ olds otas r, snapLookup old_data d = some olds →
          (r ∈ newsOf old_data d otas ↔ r ∈ otas ∧
            ∀ o ∈ olds, ¬(r.android_version = o.android_version ∧
              r.build_version = o.build_version))) := by
  intro old_data new_data d l
  constructor
  · unfold find_new_images
    rw [List.mem_filterMap]
    constructor
    · rintro ⟨⟨d', otas⟩, hmem, hf⟩
      dsimp only at hf
      cases hlk : snapLookup old_data d' with
      | none =>
        rw [hlk] at hf
        injection hf with hf
        injection hf with hd ho
        subst hd; subst ho
        exact ⟨otas, hmem, by unfold newsOf; rw [hlk], Or.inl hlk⟩
      | some olds =>
        rw [hlk] at hf
        have hf' : (if (otas.filter (fun n =>
            !(olds.any (fun o =>
              n.android_version == o.android_version &&
              n.build_version == o.build_version)))).isEmpty then none
            else some (d', otas.filter (fun n =>
              !(olds.any (fun o =>
                n.android_version == o.android_version &&
                n.build_version == o.build_version))))) = some (d, l) := hf
        by_cases he : (otas.filter (fun n =>
            !(olds.any (fun o =>
              n.android_version == o.android_version &&
              n.build_version == o.build_version)))).isEmpty
        · rw [if_pos he] at hf'
          exact absurd hf' (by simp)
        · rw [if_neg he] at hf'
          injection hf' with hf'
          injection hf' with hd ho
          subst hd
          refine ⟨otas, hmem, by unfold newsOf; rw [hlk]; exact ho.symm, Or.inr ?_⟩
          rw [← ho]
          intro hnil
          rw [hnil] at he
          exact he rfl
    · rintro ⟨otas, hmem, hl, hcond⟩
      refine ⟨(d, otas), hmem, ?_⟩
      dsimp only
      cases hlk : snapLookup old_data d with
      | none =>
        unfold newsOf at hl
        rw [hlk] at hl
        rw [hl]
      | some olds =>
        unfold newsOf at hl
        rw [hlk] at hl
        have hl' : l = otas.filter (fun n =>
            !(olds.any (fun o =>
              n.android_version == o.android_version &&
              n.build_version == o.build_version))) := hl
        have hne : l ≠ [] := by
          rcases hcond with h | h
          · rw [hlk] at h; exact absurd h (by simp)
          · exact h
        show (if (otas.filter (fun n =>
            !(olds.any (fun o =>
              n.android_version == o.android_version &&
              n.build_version == o.build_version)))).isEmpty then none
            else some (d, otas.filter (fun n =>
              !(olds.any (fun o =>
                n.android_version == o.android_version &&
                n.build_version == o.build_version))))) = some (d, l)
        rw [if_neg (by rw [← hl']; intro he; exact hne (List.isEmpty_iff.mp he)), ← hl']
  · intro olds otas r hlk
    unfold newsOf
    rw [hlk, List.mem_filter]
    simp only [Bool.not_eq_true', List.any_eq_false, Bool.and_eq_true, beq_iff_eq]

/-- C7, witness: one device where one record keeps its identity (with a
changed checksum) and one record is new — only the new record is
reported. -/
theorem c7_differ_witness :
    (("shiba",
      [mkAndroidImageInfo "15.0.0" "AP4A.250205.002.B1" none "Unknown" none
        "https://x/b.zip" none false]) ∈
      find_new_images
        [("shiba",
          [mkAndroidImageInfo "15.0.0" "AP4A.250205.002" none "Unknown" none
            "https://x/a.zip" (some "oldsum") false])]
        [("shiba",
          [mkAndroidImageInfo "15.0.0" "AP4A.250205.002" none "Unknown" none
            "https://x/a.zip" (some "newsum") false,
           mkAndroidImageInfo "15.0.0" "AP4A.250205.002.B1" none "Unknown" none
            "https://x/b.zip" none false])]) := by
  apply (c7_differ_characterization _ _ _ _).1.mpr
  refine ⟨_, List.mem_cons_self _ _, ?_, Or.inr (by decide)⟩
  decide

/-! ## Claim C8 -/

/-- The binding the checksum map ends up with for key `k`: the digest
of the *last* row whose normalized locator is `k` and whose cell has a
valid leading run (rows with invalid cells write nothing and so never
overwrite an earlier binding). -/
def lastBind : List (String × String) → String → Option String
  | [], _ => none
  | row :: rest, k =>
    match lastBind rest k with
    | some v => some v
    | none => if normalizeUrl row.1 == k then extractSha256 row.2 else none

/-- Lookup after a Python dict assignment. -/
theorem dictInsert_get (m : List (String × String)) (k v k' : String) :
    mapGet (dictInsert m k v) k' = if k' = k then some v else mapGet m k' := by
  induction m with
  | nil =>
    show mapGet [(k, v)] k' = _
    unfold mapGet
    by_cases h : k' = k
    · subst h; simp
    · rw [if_neg (by simp; exact fun e => h e.symm), if_neg h]
      rfl
  | cons p rest ih =>
    show mapGet (if p.1 == k then (k, v) :: rest else p :: dictInsert rest k v) k' = _
    by_cases hpk : (p.1 == k) = true
    · rw [if_pos hpk]
      have hp : p.1 = k := beq_iff_eq.mp hpk
      unfold mapGet
      by_cases h : k' = k
      · subst h; simp
      · rw [if_neg (show ¬((k, v).1 == k') = true by simp; exact fun e => h e.symm),
          if_neg h,
          if_neg (show ¬(p.1 == k') = true by simp [hp]; exact fun e => h e.symm)]
    · rw [if_neg hpk]
      unfold mapGet
      by_cases hpk' : (p.1 == k') = true
      · have hk : ¬ k' = k := fun e => hpk (by rw [← e]; exact hpk')
        rw [if_pos hpk', if_neg hk, if_pos hpk']
      · rw [if_neg hpk', ih]
        by_cases h : k' = k
        · rw [if_pos h, if_pos h]
        · rw [if_neg h, if_neg h, if_neg hpk']

/-- The checksum-map fold computes the last valid binding per key. -/
theorem foldl_checksumStep_get : ∀ (rows : List (String × String))
    (m : List (String × String)) (k : String),
    mapGet (rows.foldl checksumStep m) k =
      match lastBind rows k with
      | some v => some v
      | none => mapGet m k := by
  intro rows
  induction rows with
  | nil => intro m k; rfl
  | cons row rest ih =>
    intro m k
    show mapGet (rest.foldl checksumStep (checksumStep m row)) k = _
    rw [ih]
    show _ = match (match lastBind rest k with
        | some v => some v
        | none => if normalizeUrl row.1 == k then extractSha256 row.2 else none) with
      | some v => some v
      | none => mapGet m k
    cases hlb : lastBind rest k with
    | some v => rfl
    | none =>
      show mapGet (checksumStep m row) k = _
      unfold checksumStep
      cases hex : extractSha256 row.2 with
      | some v =>
        rw [dictInsert_get]
        by_cases h : k = normalizeUrl row.1
        · rw [if_pos h, if_pos (show (normalizeUrl row.1 == k) = true by simp [h])]
        · rw [if_neg h, if_neg (show ¬(normalizeUrl row.1 == k) = true by
            simp; exact fun e => h e.symm)]
      | none =>
        by_cases h : (normalizeUrl row.1 == k) = true
        · rw [if_pos h]
        · rw [if_neg h]

/-- With pairwise-distinct normalized locators, the map binds `k` to
`c` iff the unique row with locator `k` has a valid digest `c`. -/
theorem lastBind_characterization (k : String) :
    ∀ rows : List (String × String),
    (rows.map (fun r => normalizeUrl r.1)).Nodup → ∀ c : String,
    (lastBind rows k = some c ↔
      ∃ row ∈ rows, normalizeUrl row.1 = k ∧ extractSha256 row.2 = some c) := by
  intro rows
  induction rows with
  | nil => intro _ c; simp [lastBind]
  | cons row rest ih =>
    intro hnd c
    have hnotin : normalizeUrl row.1 ∉ rest.map (fun r => normalizeUrl r.1) :=
      (List.nodup_cons.mp hnd).1
    have hnd' := (List.nodup_cons.mp hnd).2
    show (match lastBind rest k with
        | some v => some v
        | none => if normalizeUrl row.1 == k then extractSha256 row.2 else none)
      = some c ↔ _
    cases hlb : lastBind rest k with
    | some v =>
      have hex := (ih hnd' v).mp hlb
      constructor
      · intro h
        injection h with h
        subst h
        obtain ⟨r', hr', hn', he'⟩ := hex
        exact ⟨r', List.mem_cons_of_mem _ hr', hn', he'⟩
      · rintro ⟨r', hr', hn', he'⟩
        rcases List.mem_cons.mp hr' with he | hm
        · exfalso
          obtain ⟨r'', hr'', hn'', _⟩ := hex
          subst he
          exact hnotin (by rw [hn', ← hn'']; exact List.mem_map_of_mem _ hr'')
        · have hthis := (ih hnd' c).mpr ⟨r', hm, hn', he'⟩
          rw [hlb] at hthis
          injection hthis with hthis
          rw [hthis]
    | none =>
      constructor
      · intro h
        by_cases hn : (normalizeUrl row.1 == k) = true
        · rw [if_pos hn] at h
          exact ⟨row, List.mem_cons_self _ _, beq_iff_eq.mp hn, h⟩
        · rw [if_neg hn] at h
          exact absurd h (by simp)
      · rintro ⟨r', hr', hn', he'⟩
        rcases List.mem_cons.mp hr' with he | hm
        · subst he
          rw [if_pos (by simp [hn'])]
          exact he'
        · have hthis := (ih hnd' c).mpr ⟨r', hm, hn', he'⟩
          rw [hlb] at hthis
          exact absurd hthis (by simp)

/--
C8: the checksum binder binds a checksum to a record iff the table row
whose normalized locator (trailing slashes stripped, lower-cased)
equals the record's normalized locator has a checksum cell whose text
begins with a run of 64 hexadecimal characters, and the bound value is
exactly the cell's first 64 characters; a cell of 64 hex characters
followed by `.zip` binds the 64 hex characters with the `.zip`
discarded (and the normalization matches `HTTP://X/shiba.zip/` with
`http://x/shiba.zip`), and a cell with no leading 64-hex run leaves the
checksum absent rather than raising.
-/
theorem c8_checksum_binding :
    (∀ rows : List (String × String), ∀ url c : String,
      (rows.map (fun r => normalizeUrl r.1)).Nodup →
      (bindChecksum rows url = some c ↔
        ∃ row ∈ rows, normalizeUrl row.1 = normalizeUrl url ∧
          extractSha256 row.2 = some c))
    ∧ bindChecksum
        [("HTTP://X/shiba.zip/",
          "0123456789abcdef0123456789abcdef0123456789abcdef0123456789abcdef.zip")]
        "http://x/shiba.zip"
      = some "0123456789abcdef0123456789abcdef0123456789abcdef0123456789abcdef"
    ∧ bindChecksum [("http://x/a.zip", "not-a-checksum")] "http://x/a.zip"
      = none := by
  refine ⟨?_, by decide, by decide⟩
  intro rows url c hnd
  have heq : bindChecksum rows url =
      match lastBind rows (normalizeUrl url) with
      | some v => some v
      | none => none := by
    show mapGet (rows.foldl checksumStep []) (normalizeUrl url) = _
    rw [foldl_checksumStep_get]
    cases lastBind rows (normalizeUrl url) <;> rfl
  rw [heq]
  cases hlb : lastBind rows (normalizeUrl url) with
  | some v =>
    constructor
    · intro h
      injection h with h
      subst h
      exact (lastBind_characterization _ rows hnd v).mp hlb
    · intro h
      have := (lastBind_characterization _ rows hnd c).mpr h
      rw [hlb] at this
      injection this with this
      rw [this]
  | none =>
    constructor
    · intro h
      exact absurd h (by simp)
    · intro h
      have := (lastBind_characterization _ rows hnd c).mpr h
      rw [hlb] at this
      exact absurd this (by simp)

/-- C8, witness: a two-row table with distinct normalized locators
binds the record's locator to the leading 64-hex run of its row. -/
theorem c8_checksum_binding_witness :
    bindChecksum
      [("http://x/b.zip", "junk"),
       ("HTTP://X/shiba.zip/",
        "0123456789abcdef0123456789abcdef0123456789abcdef0123456789abcdef.zip")]
      "http://x/shiba.zip"
    = some "0123456789abcdef0123456789abcdef0123456789abcdef0123456789abcdef" := by
  apply (c8_checksum_binding.1 _ _ _ (by decide)).mpr
  refine ⟨("HTTP://X/shiba.zip/",
    "0123456789abcdef0123456789abcdef0123456789abcdef0123456789abcdef.zip"),
    ?_, by decide, by decide⟩
  exact List.mem_cons_of_mem _ (List.mem_cons_self _ _)

/-! ## Claim C9 -/

/--
C9: the ordering induced by the ranking sort key is transitive — for
any three records, if A precedes B and B precedes C in the descending
order then A precedes C — and sorting by the key is idempotent:
sorting an already-sorted sequence yields the same sequence.
-/
theorem c9_order_trans_and_sort_idempotent :
    (∀ a b c : AndroidImageInfo,
      ranksAhead a b → ranksAhead b c → ranksAhead a c)
    ∧ ∀ l : List AndroidImageInfo, sortRecs (sortRecs l) = sortRecs l := by
  constructor
  · intro a b c hab hbc
    exact keyLt_trans hbc hab
  · intro l
    exact (List.sorted_insertionSort recLe l).insertionSort_eq

/-- C9, witness: three concrete records on Android 15/14/13, with the
transitivity instance applied to the first and third. -/
theorem c9_order_trans_witness :
    ranksAhead
      (mkAndroidImageInfo "15.0.0" "AP4A.250205.002" none "Unknown" none
        "https://x/a.zip" none false)
      (mkAndroidImageInfo "13.0.0" "TQ3A.230805.001" none "Unknown" none
        "https://x/c.zip" none false) := by
  exact c9_order_trans_and_sort_idempotent.1
    (mkAndroidImageInfo "15.0.0" "AP4A.250205.002" none "Unknown" none
      "https://x/a.zip" none false)
    (mkAndroidImageInfo "14.0.0" "AP2A.240505.004" none "Unknown" none
      "https://x/b.zip" none false)
    (mkAndroidImageInfo "13.0.0" "TQ3A.230805.001" none "Unknown" none
      "https://x/c.zip" none false)
    (by decide) (by decide)

/-! ## Claim C10 -/

/--
C10: `get_latest_factory_image` ignores every filtering option it
accepts — two calls over the same parsed snapshot and device that
differ only in the options return the same record, namely the head of
the device's full record list sorted descending by the ranking key,
with no filter, specific-build restriction, or stable-preference
fallback applied.
-/
theorem c10_factory_ignores_options :
    (∀ data dev o1 o2, get_latest_factory_image data dev o1
      = get_latest_factory_image data dev o2)
    ∧ (∀ data dev o otas, snapLookup data dev = some otas → otas ≠ [] →
        get_latest_factory_image data dev o = (sortRecs otas).head?) := by
  constructor
  · intro data dev o1 o2
    rfl
  · intro data dev o otas hlk hne
    unfold get_latest_factory_image
    rw [hlk]
    show (if otas.isEmpty then none else (sortRecs otas).head?) = _
    rw [if_neg (fun he => hne (List.isEmpty_iff.mp he))]

/-- C10, witness: with a beta-build device record and a fully
restrictive option bundle, the selector still returns the head of the
sorted full list. -/
theorem c10_factory_ignores_options_witness :
    get_latest_factory_image
      [("husky",
        [mkAndroidImageInfo "15.0.0" "BP1A.250305.019.b1" none "Unknown" none
          "https://x/husky-beta.zip" none true])]
      "husky" ⟨false, true, false, false, some "Verizon", some "EMEA", some "X"⟩
    = (sortRecs
        [mkAndroidImageInfo "15.0.0" "BP1A.250305.019.b1" none "Unknown" none
          "https://x/husky-beta.zip" none true]).head? := by
  exact c10_factory_ignores_options.2 _ _ _ _ (by decide) (by decide)

end UpdateOta
